import Mathlib

/-!
Shallow embedding of the criticizer repository's coordination core
(work queue, job dispatch, notification outbox, failure pipeline,
request validation) together with theorems checking the specification's
claims against the embedded code.

Timestamps are stored by the code as ISO-like UTC strings compared
lexicographically in SQL; lexicographic order on that format agrees with
chronological order, so times are modelled as integers with the usual
order, and `datetime(now(), '+N seconds')` becomes addition.  Every
mutating operation of the source receives the current `now()` value as
an explicit argument.
-/

namespace WorkQueue

/-- Work-queue row status, mirroring the CHECK constraint
`status IN ('queued', 'running', 'completed', 'failed')`. -/
inductive WQStatus
  | queued
  | running
  | completed
  | failed
deriving DecidableEq, Repr

def WQStatus.toStr : WQStatus → String
  | .queued => "queued"
  | .running => "running"
  | .completed => "completed"
  | .failed => "failed"

/-- One row of the `work_queue` table (src/work_queue.py, `_ensure_schema`). -/
structure WQRow where
  id : Nat
  payload : String
  status : WQStatus
  priority : Int
  run_at : Int
  claimed_by : Option String
  lease_expires_at : Option Int
  started_at : Option Int
  created_at : Int
  updated_at : Int
deriving DecidableEq, Repr

/-- The `work_queue` table: rows in insertion (rowid) order plus the next
AUTOINCREMENT id. -/
structure WQState where
  rows : List WQRow
  nextId : Nat
deriving DecidableEq, Repr

def initState : WQState := ⟨[], 1⟩

/-- Structured value occurring in a diagnostics dictionary. -/
inductive DVal
  | str (s : String)
  | nat (n : Nat)
  | optStr (o : Option String)
  | listStr (l : List String)
deriving DecidableEq, Repr

/-- `MutationResult` dataclass of src/work_queue.py; `diagnostics` is the
dict, modelled as an association list in insertion order. -/
structure MutationResult where
  ok : Bool
  rows_affected : Nat
  diagnostics : List (String × DVal)
deriving DecidableEq, Repr

/-- `WorkQueueStore.enqueue`: insert a queued row; `run_at` defaults to
`now()`. Returns the fresh id. -/
def enqueue (s : WQState) (payload : String) (priority : Int)
    (run_at : Option Int) (now : Int) : Nat × WQState :=
  let scheduled := run_at.getD now
  let row : WQRow :=
    { id := s.nextId
      payload := payload
      status := .queued
      priority := priority
      run_at := scheduled
      claimed_by := none
      lease_expires_at := none
      started_at := none
      created_at := now
      updated_at := now }
  (s.nextId, ⟨s.rows ++ [row], s.nextId + 1⟩)

/-- The requeue UPDATE shared by `requeue_expired_running` and the first
statement of `claim_next`: every running row whose lease is set and has
expired goes back to queued with owner and lease cleared. -/
def requeueExpiredRows (rows : List WQRow) (now : Int) : List WQRow :=
  rows.map fun r =>
    if r.status = .running ∧ ∃ t, r.lease_expires_at = some t ∧ t ≤ now then
      { r with status := .queued, claimed_by := none,
               lease_expires_at := none, updated_at := now }
    else r

/-- `WorkQueueStore.requeue_expired_running`. -/
def requeue_expired_running (s : WQState) (now : Int) : MutationResult × WQState :=
  let affected := (s.rows.filter fun r =>
    decide (r.status = .running ∧ ∃ t, r.lease_expires_at = some t ∧ t ≤ now)).length
  (⟨true, affected, [("code", .str "ok")]⟩, ⟨requeueExpiredRows s.rows now, s.nextId⟩)

/-- `WorkQueueStore._get_status`: status of the first row with this id. -/
def getStatus (s : WQState) (job_id : Nat) : Option WQStatus :=
  (s.rows.find? fun r => r.id == job_id).map (·.status)

/-- `WorkQueueStore._get_owner`. -/
def getOwner (s : WQState) (job_id : Nat) : Option String :=
  ((s.rows.find? fun r => r.id == job_id).map (·.claimed_by)).join

/-- `WorkQueueStore.claim`: directed claim, `UPDATE ... WHERE id = ? AND
status = 'queued'` setting status running and owner, but touching neither
`lease_expires_at` nor `started_at`. -/
def claim (s : WQState) (job_id : Nat) (worker_id : String) (now : Int) :
    MutationResult × WQState :=
  let rowSel := fun (r : WQRow) => r.id == job_id && r.status == WQStatus.queued
  let affected := (s.rows.filter rowSel).length
  let rows' := s.rows.map fun r =>
    if rowSel r then
      { r with status := .running, claimed_by := some worker_id, updated_at := now }
    else r
  if affected == 0 then
    (⟨false, 0,
      [("code", .str "invalid_transition"),
       ("from", .optStr ((getStatus s job_id).map WQStatus.toStr)),
       ("to", .str "running"),
       ("allowed_from", .listStr ["queued"])]⟩, s)
  else
    (⟨true, affected, [("code", .str "ok")]⟩, ⟨rows', s.nextId⟩)

/-- `WorkQueueStore._owner_guard_result` for a zero-row guarded update. -/
def ownerGuardFailure (s : WQState) (job_id : Nat) (worker_id : String)
    (action : String) : MutationResult :=
  let owner := getOwner s job_id
  let status := getStatus s job_id
  let reason := if owner.isSome ∧ owner ≠ some worker_id then "not_owner"
                else "invalid_transition"
  ⟨false, 0,
    [("code", .str reason),
     ("action", .str action),
     ("job_id", .nat job_id),
     ("requested_by", .str worker_id),
     ("owner", .optStr owner),
     ("status", .optStr (status.map WQStatus.toStr)),
     ("required_status", .str "running")]⟩

/-- `WorkQueueStore.heartbeat`: extend the lease when the caller owns the
running row. -/
def heartbeat (s : WQState) (job_id : Nat) (worker_id : String)
    (lease_duration_seconds : Int) (now : Int) : MutationResult × WQState :=
  let rowSel := fun (r : WQRow) =>
    r.id == job_id && r.claimed_by == some worker_id && r.status == WQStatus.running
  let affected := (s.rows.filter rowSel).length
  if affected == 0 then
    (ownerGuardFailure s job_id worker_id "heartbeat", s)
  else
    let rows' := s.rows.map fun r =>
      if rowSel r then
        { r with lease_expires_at := some (now + lease_duration_seconds),
                 updated_at := now }
      else r
    (⟨true, affected, [("code", .str "ok")]⟩, ⟨rows', s.nextId⟩)

/-- `WorkQueueStore._finalize`: set a terminal status, clearing owner and
lease, only for a running row owned by the caller. -/
def finalize (s : WQState) (job_id : Nat) (worker_id : String)
    (target : WQStatus) (now : Int) : MutationResult × WQState :=
  if target ≠ .completed ∧ target ≠ .failed then
    (⟨false, 0,
      [("code", .str "invalid_status"),
       ("status", .str target.toStr),
       ("valid_statuses", .listStr ["queued", "running", "completed", "failed"])]⟩, s)
  else
    let rowSel := fun (r : WQRow) =>
      r.id == job_id && r.claimed_by == some worker_id && r.status == WQStatus.running
    let affected := (s.rows.filter rowSel).length
    if affected == 0 then
      let owner := getOwner s job_id
      let current := getStatus s job_id
      let reason := if owner.isSome ∧ owner ≠ some worker_id then "not_owner"
                    else "invalid_transition"
      (⟨false, 0,
        [("code", .str reason),
         ("action", .str "finalize"),
         ("job_id", .nat job_id),
         ("requested_by", .str worker_id),
         ("owner", .optStr owner),
         ("from", .optStr (current.map WQStatus.toStr)),
         ("to", .str target.toStr),
         ("required_from", .str "running")]⟩, s)
    else
      let rows' := s.rows.map fun r =>
        if rowSel r then
          { r with status := target, claimed_by := none,
                   lease_expires_at := none, updated_at := now }
        else r
      (⟨true, affected, [("code", .str "ok"), ("to", .str target.toStr)]⟩,
       ⟨rows', s.nextId⟩)

/-- `WorkQueueStore.complete`. -/
def complete (s : WQState) (job_id : Nat) (worker_id : String) (now : Int) :
    MutationResult × WQState :=
  finalize s job_id worker_id .completed now

/-- `WorkQueueStore.fail`. -/
def fail (s : WQState) (job_id : Nat) (worker_id : String) (now : Int) :
    MutationResult × WQState :=
  finalize s job_id worker_id .failed now

/-- SQL comparator of `claim_next`'s candidate CTE: `ORDER BY priority
DESC, created_at ASC` — `a` strictly precedes `b`. -/
def better (a b : WQRow) : Bool :=
  a.priority > b.priority || (a.priority == b.priority && a.created_at < b.created_at)

/-- One step of the `LIMIT 1` scan: keep the current best unless the next
row is strictly better, so ties keep the earlier rowid. -/
def pickStep (best : Option WQRow) (r : WQRow) : Option WQRow :=
  match best with
  | none => some r
  | some b => if better r b then some r else some b

/-- `LIMIT 1` over the candidate scan in rowid order. -/
def pickCandidate (rows : List WQRow) : Option WQRow :=
  rows.foldl pickStep none

/-- The SET clause of `claim_next`'s claiming UPDATE. -/
def claimRow (r : WQRow) (worker_id : String) (lease_duration_seconds : Int)
    (now : Int) : WQRow :=
  { r with status := .running, claimed_by := some worker_id,
           lease_expires_at := some (now + lease_duration_seconds),
           started_at := some now, updated_at := now }

/-- Rows eligible for the candidate CTE after the requeue step:
`status = 'queued' AND run_at <= now()`. -/
def eligibleRows (s : WQState) (now : Int) : List WQRow :=
  (requeueExpiredRows s.rows now).filter fun r =>
    r.status == WQStatus.queued && decide (r.run_at ≤ now)

/-- The candidate CTE of `claim_next`: capacity gate
`(? IS NULL OR active_running < ?)` and the `ORDER BY ... LIMIT 1` scan. -/
def claimNextCandidate (s : WQState) (max_active_running : Option Nat)
    (now : Int) : Option WQRow :=
  let activeRunning := ((requeueExpiredRows s.rows now).filter fun r =>
    decide (r.status = .running ∧ ∃ t, r.lease_expires_at = some t ∧ t > now)).length
  let capOk := match max_active_running with
    | none => true
    | some cap => activeRunning < cap
  if capOk then pickCandidate (eligibleRows s now) else none

/-- `WorkQueueStore.claim_next`: one transaction that requeues expired
leases, checks the optional running-capacity cap, picks the best eligible
queued candidate, and claims it. -/
def claim_next (s : WQState) (worker_id : String)
    (lease_duration_seconds : Int) (max_active_running : Option Nat)
    (now : Int) : Option WQRow × WQState :=
  let rows1 := requeueExpiredRows s.rows now
  match claimNextCandidate s max_active_running now with
  | none => (none, ⟨rows1, s.nextId⟩)
  | some c =>
      let rows2 := rows1.map fun r =>
        if r.id == c.id then claimRow r worker_id lease_duration_seconds now else r
      (some (claimRow c worker_id lease_duration_seconds now), ⟨rows2, s.nextId⟩)

end WorkQueue

namespace WorkQueue

/-- One store operation together with the `now()` value observed when it
runs. `claim` is the guarded directed claim of `WorkQueueStore.claim`. -/
inductive WQOp
  | enqueue (payload : String) (priority : Int) (run_at : Option Int) (now : Int)
  | claimNext (worker_id : String) (lease : Int) (cap : Option Nat) (now : Int)
  | claim (job_id : Nat) (worker_id : String) (now : Int)
  | heartbeat (job_id : Nat) (worker_id : String) (lease : Int) (now : Int)
  | complete (job_id : Nat) (worker_id : String) (now : Int)
  | fail (job_id : Nat) (worker_id : String) (now : Int)
  | requeueExpired (now : Int)
deriving DecidableEq, Repr

def WQOp.isClaim : WQOp → Bool
  | .claim _ _ _ => true
  | _ => false

/-- State reached after one operation (results are discarded). -/
def applyOp (s : WQState) : WQOp → WQState
  | .enqueue p priority ra now => (enqueue s p priority ra now).2
  | .claimNext w lease cap now => (claim_next s w lease cap now).2
  | .claim jid w now => (claim s jid w now).2
  | .heartbeat jid w lease now => (heartbeat s jid w lease now).2
  | .complete jid w now => (complete s jid w now).2
  | .fail jid w now => (fail s jid w now).2
  | .requeueExpired now => (requeue_expired_running s now).2

def applyOps (s : WQState) (ops : List WQOp) : WQState :=
  ops.foldl applyOp s

/-- Row-level invariant: a running row carries an owner, a lease and a
start time; any non-running row (queued or finalized) carries neither
owner nor lease. -/
def rowInv (r : WQRow) : Prop :=
  (r.status = .running →
      r.claimed_by.isSome ∧ r.lease_expires_at.isSome ∧ r.started_at.isSome)
  ∧ (r.status ≠ .running → r.claimed_by = none ∧ r.lease_expires_at = none)

def stateInv (s : WQState) : Prop := ∀ r ∈ s.rows, rowInv r

theorem rowInv_claimRow (r : WQRow) (w : String) (lease now : Int) :
    rowInv (claimRow r w lease now) := by
  simp [rowInv, claimRow]

theorem requeueExpiredRows_inv (rows : List WQRow) (now : Int)
    (h : ∀ r ∈ rows, rowInv r) : ∀ r ∈ requeueExpiredRows rows now, rowInv r := by
  intro r hr
  rw [requeueExpiredRows, List.mem_map] at hr
  obtain ⟨r0, hr0, rfl⟩ := hr
  split
  · simp [rowInv]
  · exact h r0 hr0

theorem enqueue_inv (s : WQState) (p : String) (priority : Int)
    (ra : Option Int) (now : Int) (h : stateInv s) :
    stateInv (enqueue s p priority ra now).2 := by
  intro r hr
  simp only [enqueue, List.mem_append, List.mem_singleton] at hr
  rcases hr with hr | rfl
  · exact h r hr
  · simp [rowInv]

theorem claim_next_inv (s : WQState) (w : String) (lease : Int)
    (cap : Option Nat) (now : Int) (h : stateInv s) :
    stateInv (claim_next s w lease cap now).2 := by
  intro r hr
  simp only [claim_next] at hr
  split at hr
  · exact requeueExpiredRows_inv s.rows now h r hr
  · simp only [List.mem_map] at hr
    obtain ⟨r0, hr0, rfl⟩ := hr
    split
    · exact rowInv_claimRow _ _ _ _
    · exact requeueExpiredRows_inv s.rows now h r0 hr0

theorem heartbeat_inv (s : WQState) (jid : Nat) (w : String)
    (lease now : Int) (h : stateInv s) :
    stateInv (heartbeat s jid w lease now).2 := by
  intro r hr
  simp only [heartbeat] at hr
  split at hr
  · exact h r hr
  · simp only [List.mem_map] at hr
    obtain ⟨r0, hr0, rfl⟩ := hr
    split
    · next hc =>
      simp only [Bool.and_eq_true, beq_iff_eq] at hc
      obtain ⟨⟨hid, hcl⟩, hst⟩ := hc
      obtain ⟨h1, _⟩ := h r0 hr0
      obtain ⟨hclaimed, _, hstarted⟩ := h1 hst
      refine ⟨fun _ => ⟨hclaimed ▸ hcl ▸ rfl, rfl, hstarted⟩, fun hne => absurd hst hne⟩
    · exact h r0 hr0

theorem finalize_inv (s : WQState) (jid : Nat) (w : String)
    (target : WQStatus) (now : Int) (h : stateInv s)
    (htarget : target = .completed ∨ target = .failed) :
    stateInv (finalize s jid w target now).2 := by
  intro r hr
  simp only [finalize] at hr
  split at hr
  · exact h r hr
  · split at hr
    · exact h r hr
    · simp only [List.mem_map] at hr
      obtain ⟨r0, hr0, rfl⟩ := hr
      split
      · rcases htarget with rfl | rfl <;> simp [rowInv]
      · exact h r0 hr0

theorem requeue_expired_running_inv (s : WQState) (now : Int) (h : stateInv s) :
    stateInv (requeue_expired_running s now).2 := by
  intro r hr
  simp only [requeue_expired_running] at hr
  exact requeueExpiredRows_inv s.rows now h r hr

theorem applyOp_inv (s : WQState) (op : WQOp) (h : stateInv s)
    (hop : op.isClaim = false) : stateInv (applyOp s op) := by
  cases op with
  | enqueue p priority ra now => exact enqueue_inv s p priority ra now h
  | claimNext w lease cap now => exact claim_next_inv s w lease cap now h
  | claim jid w now => simp [WQOp.isClaim] at hop
  | heartbeat jid w lease now => exact heartbeat_inv s jid w lease now h
  | complete jid w now => exact finalize_inv s jid w .completed now h (Or.inl rfl)
  | fail jid w now => exact finalize_inv s jid w .failed now h (Or.inr rfl)
  | requeueExpired now => exact requeue_expired_running_inv s now h

theorem applyOps_inv (ops : List WQOp) (s : WQState) (h : stateInv s)
    (hops : ∀ op ∈ ops, op.isClaim = false) : stateInv (applyOps s ops) := by
  induction ops generalizing s with
  | nil => exact h
  | cons op rest ih =>
      exact ih (applyOp s op)
        (applyOp_inv s op h (hops op (List.mem_cons_self _ _)))
        (fun o ho => hops o (List.mem_cons_of_mem _ ho))

end WorkQueue

namespace WorkQueue

/-- C1 (counterexample): the directed `claim` operation — explicitly listed
by the claim — produces a running row whose `lease_expires_at` and
`started_at` are both null, so the claimed invariant
`status = running ⇒ lease_expires_at ≠ null` (and `started_at` set on the
first transition into running) is false after the operation sequence
`enqueue; claim`. -/
theorem c1_counterexample :
    ((applyOps initState
        [.enqueue "hello" 0 none 0, .claim 1 "w1" 1]).rows.map
      fun r => (r.status, r.claimed_by, r.lease_expires_at, r.started_at))
      = [(.running, some "w1", none, none)] := by
  decide

/-- C1 (amended): after any sequence of `enqueue`, `claim_next`,
`heartbeat`, `complete`, `fail`, `requeue_expired_running` — the directed
`claim` excluded, since it sets `running` without stamping a lease or
start time — every row is running iff `claimed_by` and `lease_expires_at`
are non-null, `started_at` is non-null whenever the row is running, and
finalized or queued rows have owner and lease both null. -/
theorem c1_invariant (ops : List WQOp)
    (hops : ∀ op ∈ ops, op.isClaim = false) :
    stateInv (applyOps initState ops) := by
  refine applyOps_inv ops initState ?_ hops
  intro r hr
  simp [initState] at hr

/-- Witness for `c1_invariant` at a concrete operation sequence. -/
theorem c1_invariant_witness :
    (∀ op ∈ ([.enqueue "p" 5 none 0, .claimNext "w" 30 none 1,
              .heartbeat 1 "w" 30 2, .complete 1 "w" 3] : List WQOp),
        op.isClaim = false)
    ∧ stateInv (applyOps initState
        [.enqueue "p" 5 none 0, .claimNext "w" 30 none 1,
         .heartbeat 1 "w" 30 2, .complete 1 "w" 3]) :=
  ⟨by decide, c1_invariant _ (by decide)⟩

/-- C7 (counterexample): `complete` on a queued job reports
`required_from = "running"` and carries no `allowed_from` key at all, so
the claimed diagnostic `allowed_from=[queued]` is not what the code
returns. -/
theorem c7_counterexample :
    ((complete (enqueue initState "hello" 0 none 0).2 1 "w1" 1).1.diagnostics.lookup
        "allowed_from" = none)
    ∧ ((complete (enqueue initState "hello" 0 none 0).2 1 "w1" 1).1.diagnostics.lookup
        "required_from" = some (.str "running")) := by
  decide

/-- C7 (amended): `complete` and `fail` mutate a row only when it is
running and owned by the caller; otherwise the state is unchanged and the
result is `ok = false` with code `not_owner` when a different owner holds
the row and `invalid_transition` otherwise; in particular `complete` on a
queued job returns `ok=false, code=invalid_transition, from=queued,
to=completed, required_from=running`. -/
theorem c7_finalize_guard (s : WQState) (jid : Nat) (w : String) (now : Int)
    (hnm : ∀ r ∈ s.rows,
      ¬(r.id = jid ∧ r.claimed_by = some w ∧ r.status = .running)) :
    ((complete s jid w now).2 = s ∧ (fail s jid w now).2 = s
      ∧ (complete s jid w now).1.ok = false ∧ (fail s jid w now).1.ok = false
      ∧ (complete s jid w now).1.diagnostics.lookup "code" =
          some (.str (if (getOwner s jid).isSome ∧ getOwner s jid ≠ some w
                      then "not_owner" else "invalid_transition"))
      ∧ (fail s jid w now).1.diagnostics.lookup "code" =
          some (.str (if (getOwner s jid).isSome ∧ getOwner s jid ≠ some w
                      then "not_owner" else "invalid_transition")))
    ∧ (complete (enqueue initState "q" 0 none 0).2 1 "w1" 1).1 =
        ⟨false, 0,
          [("code", .str "invalid_transition"),
           ("action", .str "finalize"),
           ("job_id", .nat 1),
           ("requested_by", .str "w1"),
           ("owner", .optStr none),
           ("from", .optStr (some "queued")),
           ("to", .str "completed"),
           ("required_from", .str "running")]⟩ := by
  have hfilter : ∀ target : WQStatus,
      (s.rows.filter fun r =>
        r.id == jid && r.claimed_by == some w && r.status == WQStatus.running) = [] := by
    intro _
    rw [List.filter_eq_nil_iff]
    intro r hr
    have := hnm r hr
    simp only [Bool.and_eq_true, beq_iff_eq, not_and_or] at this ⊢
    tauto
  constructor
  · have hc : ∀ target : WQStatus, target = .completed ∨ target = .failed →
        (finalize s jid w target now).2 = s
        ∧ (finalize s jid w target now).1.ok = false
        ∧ (finalize s jid w target now).1.diagnostics.lookup "code" =
            some (.str (if (getOwner s jid).isSome ∧ getOwner s jid ≠ some w
                        then "not_owner" else "invalid_transition")) := by
      intro target htarget
      have hfalse : ¬(target ≠ WQStatus.completed ∧ target ≠ WQStatus.failed) := by
        rcases htarget with rfl | rfl <;> simp
      rw [finalize]
      rw [if_neg hfalse]
      simp only [hfilter target, List.length_nil]
      split
      · refine ⟨rfl, rfl, ?_⟩
        split <;> simp [List.lookup]
      · simp at *
    obtain ⟨h1, h2, h3⟩ := hc .completed (Or.inl rfl)
    obtain ⟨h4, h5, h6⟩ := hc .failed (Or.inr rfl)
    exact ⟨h1, h4, h2, h5, h3, h6⟩
  · decide

/-- Witness for `c7_finalize_guard` on a concrete queued job. -/
theorem c7_finalize_guard_witness :
    (∀ r ∈ (enqueue initState "q" 0 none 0).2.rows,
        ¬(r.id = 1 ∧ r.claimed_by = some "w1" ∧ r.status = WQStatus.running))
    ∧ ((complete (enqueue initState "q" 0 none 0).2 1 "w1" 1).2 =
          (enqueue initState "q" 0 none 0).2
        ∧ (fail (enqueue initState "q" 0 none 0).2 1 "w1" 1).2 =
          (enqueue initState "q" 0 none 0).2
        ∧ (complete (enqueue initState "q" 0 none 0).2 1 "w1" 1).1.ok = false
        ∧ (fail (enqueue initState "q" 0 none 0).2 1 "w1" 1).1.ok = false
        ∧ (complete (enqueue initState "q" 0 none 0).2 1 "w1" 1).1.diagnostics.lookup
            "code" = some (.str
              (if (getOwner (enqueue initState "q" 0 none 0).2 1).isSome
                  ∧ getOwner (enqueue initState "q" 0 none 0).2 1 ≠ some "w1"
               then "not_owner" else "invalid_transition"))
        ∧ (fail (enqueue initState "q" 0 none 0).2 1 "w1" 1).1.diagnostics.lookup
            "code" = some (.str
              (if (getOwner (enqueue initState "q" 0 none 0).2 1).isSome
                  ∧ getOwner (enqueue initState "q" 0 none 0).2 1 ≠ some "w1"
               then "not_owner" else "invalid_transition")))
      ∧ (complete (enqueue initState "q" 0 none 0).2 1 "w1" 1).1 =
        ⟨false, 0,
          [("code", .str "invalid_transition"),
           ("action", .str "finalize"),
           ("job_id", .nat 1),
           ("requested_by", .str "w1"),
           ("owner", .optStr none),
           ("from", .optStr (some "queued")),
           ("to", .str "completed"),
           ("required_from", .str "running")]⟩ :=
  ⟨by decide, c7_finalize_guard (enqueue initState "q" 0 none 0).2 1 "w1" 1 (by decide)⟩

end WorkQueue

namespace WorkQueue

/-- The ordering `priority DESC, created_at ASC, id ASC` of the claim:
`a` comes no later than `b`. -/
def lexLE (a b : WQRow) : Prop :=
  a.priority > b.priority ∨
    (a.priority = b.priority ∧
      (a.created_at < b.created_at ∨
        (a.created_at = b.created_at ∧ a.id ≤ b.id)))

theorem lexLE_refl (a : WQRow) : lexLE a a := by
  unfold lexLE
  omega

theorem lexLE_trans {a b c : WQRow} (h1 : lexLE a b) (h2 : lexLE b c) :
    lexLE a c := by
  unfold lexLE at *
  omega

theorem better_true_lexLE {a b : WQRow} (h : better a b = true) : lexLE a b := by
  unfold better at h
  simp only [Bool.or_eq_true, Bool.and_eq_true, beq_iff_eq,
    decide_eq_true_eq] at h
  unfold lexLE
  omega

theorem better_false_lexLE {a b : WQRow} (h : better b a = false)
    (hid : a.id ≤ b.id) : lexLE a b := by
  unfold better at h
  simp only [Bool.or_eq_false_iff, Bool.and_eq_false_iff, beq_iff_eq,
    decide_eq_false_iff_not, beq_eq_false_iff_ne, ne_eq] at h
  unfold lexLE
  rcases h with ⟨h1, h2 | h2⟩ <;> omega

theorem foldl_pickStep_spec (l : List WQRow) (b : WQRow)
    (hids : ∀ e ∈ l, b.id < e.id)
    (hl : List.Pairwise (fun x y => x.id < y.id) l) :
    ∃ c, l.foldl pickStep (some b) = some c ∧ (c = b ∨ c ∈ l)
      ∧ lexLE c b ∧ ∀ e ∈ l, lexLE c e := by
  induction l generalizing b with
  | nil => exact ⟨b, rfl, Or.inl rfl, lexLE_refl b, by simp⟩
  | cons r rest ih =>
      rw [List.pairwise_cons] at hl
      obtain ⟨hr_rest, hl'⟩ := hl
      by_cases hbr : better r b = true
      · obtain ⟨c, hc, hmem, hcb, hall⟩ := ih r hr_rest hl'
        refine ⟨c, ?_, ?_, lexLE_trans hcb (better_true_lexLE hbr), ?_⟩
        · simpa [pickStep, hbr] using hc
        · rcases hmem with rfl | hmem
          · exact Or.inr (List.mem_cons_self _ _)
          · exact Or.inr (List.mem_cons_of_mem _ hmem)
        · intro e he
          rcases List.mem_cons.mp he with rfl | he
          · exact hcb
          · exact hall e he
      · rw [Bool.not_eq_true] at hbr
        have hbltr : lexLE b r :=
          better_false_lexLE hbr (le_of_lt (hids r (List.mem_cons_self _ _)))
        have hids' : ∀ e ∈ rest, b.id < e.id :=
          fun e he => hids e (List.mem_cons_of_mem _ he)
        obtain ⟨c, hc, hmem, hcb, hall⟩ := ih b hids' hl'
        refine ⟨c, ?_, ?_, hcb, ?_⟩
        · simpa [pickStep, hbr] using hc
        · rcases hmem with rfl | hmem
          · exact Or.inl rfl
          · exact Or.inr (List.mem_cons_of_mem _ hmem)
        · intro e he
          rcases List.mem_cons.mp he with rfl | he
          · exact lexLE_trans hcb hbltr
          · exact hall e he

theorem pickCandidate_spec (l : List WQRow)
    (hl : List.Pairwise (fun x y => x.id < y.id) l)
    (c : WQRow) (h : pickCandidate l = some c) :
    c ∈ l ∧ ∀ e ∈ l, lexLE c e := by
  cases l with
  | nil => simp [pickCandidate] at h
  | cons r rest =>
      rw [List.pairwise_cons] at hl
      obtain ⟨hr_rest, hl'⟩ := hl
      obtain ⟨c', hc', hmem, hcb, hall⟩ := foldl_pickStep_spec rest r hr_rest hl'
      have : pickCandidate (r :: rest) = some c' := by
        simpa [pickCandidate, pickStep] using hc'
      rw [this] at h
      obtain rfl := Option.some_injective _ h
      refine ⟨?_, ?_⟩
      · rcases hmem with rfl | hmem
        · exact List.mem_cons_self _ _
        · exact List.mem_cons_of_mem _ hmem
      · intro e he
        rcases List.mem_cons.mp he with rfl | he
        · exact hcb
        · exact hall e he

theorem requeueExpiredRows_id_eq (rows : List WQRow) (now : Int) (r : WQRow) :
    r ∈ rows → ∃ r', r' ∈ requeueExpiredRows rows now ∧ r'.id = r.id := by
  intro hr
  unfold requeueExpiredRows
  refine ⟨_, List.mem_map_of_mem _ hr, ?_⟩
  split <;> rfl

theorem requeueExpiredRows_pairwise (rows : List WQRow) (now : Int)
    (h : List.Pairwise (fun x y => x.id < y.id) rows) :
    List.Pairwise (fun x y => x.id < y.id) (requeueExpiredRows rows now) := by
  unfold requeueExpiredRows
  rw [List.pairwise_map]
  refine h.imp ?_
  intro a b hab
  split <;> split <;> simpa using hab

end WorkQueue

namespace WorkQueue

theorem claimNextCandidate_spec (s : WQState) (cap : Option Nat) (now : Int)
    (hsorted : List.Pairwise (fun x y => x.id < y.id) s.rows)
    (c : WQRow) (h : claimNextCandidate s cap now = some c) :
    c ∈ eligibleRows s now ∧ ∀ e ∈ eligibleRows s now, lexLE c e := by
  unfold claimNextCandidate at h
  simp only at h
  split at h
  · refine pickCandidate_spec _ ?_ c h
    exact List.Pairwise.sublist (List.filter_sublist _)
      (requeueExpiredRows_pairwise s.rows now hsorted)
  · simp at h

/-- The three-job ordering scenario state: `(priority=100, far-future
run_at)`, `(priority=1, past run_at)`, `(priority=10, past run_at)`. -/
def c2state : WQState :=
  applyOps initState
    [.enqueue "future" 100 (some 1000000) 0,
     .enqueue "low-old" 1 (some 0) 0,
     .enqueue "high" 10 (some 0) 0]

/-- C2: when the table's rows are in rowid order (as SQLite stores them),
any row returned by `claim_next` is the claimed version of an eligible
row — queued with `run_at ≤ now`, so a future `run_at` is never returned
early — that is least in the order `priority DESC, created_at ASC, id
ASC` among all eligible rows; and on the concrete three-job scenario the
successive `claim_next` calls return the priority-10 job, then the
priority-1 job, then empty, while the far-future priority-100 job stays
queued. -/
theorem c2_claim_next_ordering (s : WQState) (w : String) (lease : Int)
    (cap : Option Nat) (now : Int) (r : WQRow)
    (hsorted : List.Pairwise (fun x y => x.id < y.id) s.rows)
    (hr : (claim_next s w lease cap now).1 = some r) :
    (∃ r0, r0 ∈ requeueExpiredRows s.rows now
      ∧ r = claimRow r0 w lease now
      ∧ r0.status = .queued ∧ r0.run_at ≤ now
      ∧ ∀ e ∈ requeueExpiredRows s.rows now,
          e.status = .queued → e.run_at ≤ now → lexLE r0 e)
    ∧ ((claim_next c2state "wa" 45 none 100).1.map (fun x => x.id) = some 3
      ∧ (claim_next (claim_next c2state "wa" 45 none 100).2
          "wb" 30 none 101).1.map (fun x => x.id) = some 2
      ∧ (claim_next (claim_next (claim_next c2state "wa" 45 none 100).2
          "wb" 30 none 101).2 "wc" 30 none 102).1 = none
      ∧ getStatus (claim_next (claim_next (claim_next c2state "wa" 45 none
          100).2 "wb" 30 none 101).2 "wc" 30 none 102).2 1 = some .queued) := by
  constructor
  · unfold claim_next at hr
    simp only at hr
    split at hr
    · simp at hr
    · next c heq =>
        simp only [Option.some.injEq] at hr
        obtain ⟨hmem, hmin⟩ := claimNextCandidate_spec s cap now hsorted c heq
        unfold eligibleRows at hmem hmin
        obtain ⟨hmem', hpred⟩ := List.mem_filter.mp hmem
        simp only [Bool.and_eq_true, beq_iff_eq, decide_eq_true_eq] at hpred
        refine ⟨c, hmem', hr.symm, hpred.1, hpred.2, ?_⟩
        intro e he hq hrun
        exact hmin e (List.mem_filter.mpr ⟨he, by simp [hq, hrun]⟩)
  · refine ⟨by decide, by decide, by decide, by decide⟩

/-- Witness for `c2_claim_next_ordering`: the first scenario call returns
the claimed priority-10 row. -/
theorem c2_claim_next_ordering_witness :
    List.Pairwise (fun x y => x.id < y.id) c2state.rows
    ∧ (claim_next c2state "wa" 45 none 100).1 =
        some ⟨3, "high", .running, 10, 0, some "wa", some 145, some 100, 0, 100⟩
    ∧ ((∃ r0, r0 ∈ requeueExpiredRows c2state.rows 100
        ∧ (⟨3, "high", .running, 10, 0, some "wa", some 145, some 100, 0, 100⟩ : WQRow)
            = claimRow r0 "wa" 45 100
        ∧ r0.status = .queued ∧ r0.run_at ≤ 100
        ∧ ∀ e ∈ requeueExpiredRows c2state.rows 100,
            e.status = .queued → e.run_at ≤ 100 → lexLE r0 e)
      ∧ ((claim_next c2state "wa" 45 none 100).1.map (fun x => x.id) = some 3
        ∧ (claim_next (claim_next c2state "wa" 45 none 100).2
            "wb" 30 none 101).1.map (fun x => x.id) = some 2
        ∧ (claim_next (claim_next (claim_next c2state "wa" 45 none 100).2
            "wb" 30 none 101).2 "wc" 30 none 102).1 = none
        ∧ getStatus (claim_next (claim_next (claim_next c2state "wa" 45 none
            100).2 "wb" 30 none 101).2 "wc" 30 none 102).2 1 = some .queued)) :=
  ⟨by decide, by decide,
    c2_claim_next_ordering c2state "wa" 45 none 100
      ⟨3, "high", .running, 10, 0, some "wa", some 145, some 100, 0, 100⟩
      (by decide) (by decide)⟩

end WorkQueue

namespace WorkQueue

/-- Renewal cadence actually computed by `WorkerRuntime.process_running_job`:
`max(1, lease_duration_seconds // 3)` with Python floor division. -/
def heartbeat_every (lease_duration_seconds : Int) : Int :=
  max 1 (lease_duration_seconds.fdiv 3)

/-- Modelled from the claim's words only (for comparison with the code's
`heartbeat_every`): a cadence of `⌈lease_duration/3⌉` seconds. -/
def claimedHeartbeatEvery (lease_duration_seconds : Int) : Int :=
  (lease_duration_seconds + 2).fdiv 3

/-- Payload dict of a worker event; the dict's optional keys become
optional fields. -/
structure EventPayload where
  status : String
  lease_duration_seconds : Option Int
  diagnostics : Option (List (String × DVal))
deriving DecidableEq, Repr

/-- `WorkerEvent` dataclass. -/
structure WorkerEvent where
  type : String
  job_id : Nat
  worker_id : String
  payload : EventPayload
deriving DecidableEq, Repr

/-- `WorkerRunResult` dataclass. -/
structure WorkerRunResult where
  status : String
  lease_lost : Bool
  events : List WorkerEvent
deriving DecidableEq, Repr

/-- Deterministic environment of one `process_running_job` run: `clock k`
is what the k-th call of `now_fn` returns, and `steps j` is what the j-th
call of `process_step` returns. -/
structure RunCfg where
  clock : Nat → Int
  steps : Nat → Bool

/-- The `while True` loop of `process_running_job`, with explicit fuel
(the Python loop need not terminate); `k`/`j` count the `now_fn` and
`process_step` calls made so far. The final `Bool` is the runtime's
`lease_lost` flag. -/
def processLoop (cfg : RunCfg) (jobId : Nat) (workerId : String)
    (lease dbNow : Int) :
    Nat → WQState → Nat → Nat → Int → List WorkerEvent →
      Option (WorkerRunResult × WQState × Bool)
  | 0, _, _, _, _, _ => none
  | fuel + 1, store, k, j, nextHb, events =>
    if cfg.clock k ≥ nextHb then
      if (heartbeat store jobId workerId lease dbNow).1.ok then
        if cfg.steps j then
          processLoop cfg jobId workerId lease dbNow fuel
            (heartbeat store jobId workerId lease dbNow).2 (k + 2) (j + 1)
            (cfg.clock (k + 1) + heartbeat_every lease)
            (events ++
              [⟨"heartbeat_renewed", jobId, workerId, ⟨"running", some lease, none⟩⟩])
        else
          some (⟨"processing_complete", false,
            events ++
              [⟨"heartbeat_renewed", jobId, workerId, ⟨"running", some lease, none⟩⟩]⟩,
            (heartbeat store jobId workerId lease dbNow).2, false)
      else
        some (⟨"lease_lost", true, events ++
          [⟨"lease_lost", jobId, workerId,
            ⟨"lease_lost", none,
              some (heartbeat store jobId workerId lease dbNow).1.diagnostics⟩⟩]⟩,
          (heartbeat store jobId workerId lease dbNow).2, true)
    else
      if cfg.steps j then
        processLoop cfg jobId workerId lease dbNow fuel store (k + 1) (j + 1)
          nextHb events
      else
        some (⟨"processing_complete", false, events⟩, store, false)

/-- `WorkerRuntime.process_running_job`: one `now_fn` call seeds
`next_heartbeat_at`, then the loop runs. -/
def process_running_job (cfg : RunCfg) (store : WQState) (jobId : Nat)
    (workerId : String) (lease dbNow : Int) (fuel : Nat) :
    Option (WorkerRunResult × WQState × Bool) :=
  processLoop cfg jobId workerId lease dbNow fuel store 1 0
    (cfg.clock 0 + heartbeat_every lease) []

def countLost (events : List WorkerEvent) : Nat :=
  events.countP fun e => e.type == "lease_lost"

def countRenewed (events : List WorkerEvent) : Nat :=
  events.countP fun e => e.type == "heartbeat_renewed"

theorem heartbeat_preserves_statuses (s : WQState) (jid : Nat) (w : String)
    (lease now : Int) :
    ((heartbeat s jid w lease now).2.rows.map fun x => (x.id, x.status))
      = s.rows.map fun x => (x.id, x.status) := by
  unfold heartbeat
  simp only
  split
  · rfl
  · simp only [List.map_map]
    apply List.map_congr_left
    intro r _
    simp only [Function.comp_apply]
    split <;> rfl

end WorkQueue

namespace WorkQueue

theorem processLoop_spec (cfg : RunCfg) (jobId : Nat) (workerId : String)
    (lease dbNow : Int) (fuel : Nat) :
    ∀ (store : WQState) (k j : Nat) (nextHb : Int)
      (events : List WorkerEvent) (r : WorkerRunResult) (s' : WQState)
      (ll : Bool),
      processLoop cfg jobId workerId lease dbNow fuel store k j nextHb events
        = some (r, s', ll) →
      r.lease_lost = ll
      ∧ (r.status = "lease_lost" ∨ r.status = "processing_complete")
      ∧ (r.status = "lease_lost" ↔ ll = true)
      ∧ countLost r.events = countLost events + (if ll then 1 else 0)
      ∧ (ll = true → ∃ e, r.events.getLast? = some e ∧ e.type = "lease_lost")
      ∧ (s'.rows.map fun x => (x.id, x.status))
          = store.rows.map fun x => (x.id, x.status) := by
  induction fuel with
  | zero =>
      intro store k j nextHb events r s' ll h
      simp [processLoop] at h
  | succ fuel ih =>
      intro store k j nextHb events r s' ll h
      rw [processLoop] at h
      split at h
      · split at h
        · split at h
          · -- renewal succeeded, keep processing
            obtain ⟨h1, h2, h3, h4, h5, h6⟩ := ih _ _ _ _ _ _ _ _ h
            refine ⟨h1, h2, h3, ?_, h5, h6.trans
              (heartbeat_preserves_statuses store jobId workerId lease dbNow)⟩
            rw [h4]
            simp [countLost]
          · -- renewal succeeded, process_step returned false
            simp only [Option.some.injEq, Prod.mk.injEq] at h
            obtain ⟨rfl, rfl, rfl⟩ := h
            refine ⟨rfl, Or.inr rfl, by simp, ?_, by simp,
              heartbeat_preserves_statuses store jobId workerId lease dbNow⟩
            simp [countLost]
        · -- renewal failed: lease lost
          simp only [Option.some.injEq, Prod.mk.injEq] at h
          obtain ⟨rfl, rfl, rfl⟩ := h
          refine ⟨rfl, Or.inl rfl, by simp, ?_, ?_,
            heartbeat_preserves_statuses store jobId workerId lease dbNow⟩
          · simp [countLost]
          · intro _
            exact ⟨_, List.getLast?_concat _, rfl⟩
      · split at h
        · exact ih _ _ _ _ _ _ _ _ h
        · simp only [Option.some.injEq, Prod.mk.injEq] at h
          obtain ⟨rfl, rfl, rfl⟩ := h
          exact ⟨rfl, Or.inr rfl, by simp, by simp, by simp, rfl⟩

end WorkQueue

namespace WorkQueue

/-- A monotonic clock advancing one second every loop iteration (each
iteration makes two `now_fn` calls when a renewal happens, one
otherwise; this clock gives the k-th call the value `k / 2`). -/
def halfClock : Nat → Int := fun k => ((k / 2 : Nat) : Int)

/-- Environment of the renewal-cadence scenario: five `process_step`
calls, the first four returning `true`. -/
def renewCfg : RunCfg := ⟨halfClock, fun j => decide (j + 1 < 5)⟩

/-- Environment whose `process_step` always returns `true`. -/
def alwaysStepCfg : RunCfg := ⟨halfClock, fun _ => true⟩

/-- Environment with exactly one `process_step` call returning `true`. -/
def oneStepCfg : RunCfg := ⟨halfClock, fun j => decide (j < 1)⟩

/-- A store with job 1 running and owned by `worker-1`. -/
def runtimeStore : WQState :=
  (claim (enqueue initState "hb-job" 0 none 0).2 1 "worker-1" 0).2

/-- A store with job 1 running but owned by `other-worker` (ownership
externally stolen before the loop starts). -/
def stolenStore : WQState :=
  (claim (enqueue initState "job" 0 none 0).2 1 "other-worker" 0).2

/-- C6 (counterexample): the code's renewal cadence is
`max(1, lease_duration // 3)`, not `⌈lease_duration/3⌉`: at
`lease_duration = 4` the code schedules heartbeats every 1 second while
the claim says every 2, and a run with a 1-second-per-iteration clock
indeed emits a renewal after only 1 second of monotonic time. -/
theorem c6_counterexample :
    heartbeat_every 4 ≠ claimedHeartbeatEvery 4
    ∧ heartbeat_every 4 = 1 ∧ claimedHeartbeatEvery 4 = 2
    ∧ ((process_running_job oneStepCfg runtimeStore 1 "worker-1" 4 50 10).map
        fun t => countRenewed t.1.events) = some 1
    ∧ halfClock 0 = 0 ∧ halfClock 1 = 0 ∧ halfClock 2 = 1 ∧ halfClock 3 = 1 := by
  decide

/-- C6 (amended): `process_running_job` renews the lease via `heartbeat`
every `max(1, ⌊lease_duration/3⌋)` seconds of monotonic time while
`process_step` returns true; on a failed heartbeat it immediately stops —
the final event is the run's only `lease_lost` event — and returns
status `lease_lost`; when `process_step` returns false it returns
`processing_complete`; and it never changes any row's status, so it
finalizes nothing. Concretely, with `lease_duration=3` and a clock
advancing one second per iteration, five steps yield four
`heartbeat_renewed` events and completion, while a stolen job yields
exactly one `lease_lost` event after a single step. -/
theorem c6_runtime (cfg : RunCfg) (store : WQState) (jobId : Nat)
    (workerId : String) (lease dbNow : Int) (fuel : Nat)
    (r : WorkerRunResult) (s' : WQState) (ll : Bool)
    (h : process_running_job cfg store jobId workerId lease dbNow fuel
      = some (r, s', ll)) :
    ((r.status = "lease_lost" → r.lease_lost = true ∧ countLost r.events = 1
        ∧ ∃ e, r.events.getLast? = some e ∧ e.type = "lease_lost")
      ∧ (r.status = "processing_complete" →
          r.lease_lost = false ∧ countLost r.events = 0)
      ∧ (r.status = "lease_lost" ∨ r.status = "processing_complete")
      ∧ (s'.rows.map fun x => (x.id, x.status))
          = store.rows.map fun x => (x.id, x.status))
    ∧ (((process_running_job renewCfg runtimeStore 1 "worker-1" 3 50 10).map
          fun t => (t.1.status, countRenewed t.1.events))
            = some ("processing_complete", 4)
      ∧ ((process_running_job alwaysStepCfg stolenStore 1 "owner" 3 50 10).map
          fun t => (t.1.status, countLost t.1.events, t.1.events.length))
            = some ("lease_lost", 1, 1)) := by
  obtain ⟨h1, h2, h3, h4, h5, h6⟩ :=
    processLoop_spec cfg jobId workerId lease dbNow fuel _ _ _ _ _ _ _ _ h
  refine ⟨⟨?_, ?_, h2, h6⟩, by decide, by decide⟩
  · intro hst
    have hll : ll = true := h3.mp hst
    subst hll
    refine ⟨h1, ?_, h5 rfl⟩
    simpa [countLost] using h4
  · intro hst
    have hne : ¬(r.status = "lease_lost") := by
      rw [hst]
      decide
    have hll : ll = false := by
      cases ll
      · rfl
      · exact absurd (h3.mpr rfl) hne
    subst hll
    refine ⟨h1, ?_⟩
    simpa [countLost] using h4

/-- The run result of the stolen-ownership scenario. -/
def stolenRunResult : WorkerRunResult :=
  ⟨"lease_lost", true,
    [⟨"lease_lost", 1, "owner",
      ⟨"lease_lost", none,
        some [("code", DVal.str "not_owner"),
              ("action", DVal.str "heartbeat"),
              ("job_id", DVal.nat 1),
              ("requested_by", DVal.str "owner"),
              ("owner", DVal.optStr (some "other-worker")),
              ("status", DVal.optStr (some "running")),
              ("required_status", DVal.str "running")]⟩⟩]⟩

/-- Witness for `c6_runtime`: the stolen-ownership run. -/
theorem c6_runtime_witness :
    (process_running_job alwaysStepCfg stolenStore 1 "owner" 3 50 10
      = some (stolenRunResult, stolenStore, true))
    ∧ (((stolenRunResult.status = "lease_lost" →
          stolenRunResult.lease_lost = true ∧ countLost stolenRunResult.events = 1
          ∧ ∃ e, stolenRunResult.events.getLast? = some e ∧ e.type = "lease_lost")
        ∧ (stolenRunResult.status = "processing_complete" →
            stolenRunResult.lease_lost = false ∧ countLost stolenRunResult.events = 0)
        ∧ (stolenRunResult.status = "lease_lost"
          ∨ stolenRunResult.status = "processing_complete")
        ∧ (stolenStore.rows.map fun x => (x.id, x.status))
            = stolenStore.rows.map fun x => (x.id, x.status))
      ∧ (((process_running_job renewCfg runtimeStore 1 "worker-1" 3 50 10).map
            fun t => (t.1.status, countRenewed t.1.events))
              = some ("processing_complete", 4)
        ∧ ((process_running_job alwaysStepCfg stolenStore 1 "owner" 3 50 10).map
            fun t => (t.1.status, countLost t.1.events, t.1.events.length))
              = some ("lease_lost", 1, 1))) :=
  ⟨by decide,
    c6_runtime alwaysStepCfg stolenStore 1 "owner" 3 50 10
      stolenRunResult stolenStore true (by decide)⟩

end WorkQueue

namespace JobDispatch

/-- Dispatch job status, mirroring the CHECK constraint of the `jobs`
table (src/job_dispatch.py). -/
inductive JDStatus
  | queued
  | running
  | succeeded
  | failed
deriving DecidableEq, Repr

/-- One row of the `jobs` table. -/
structure JDRow where
  id : Nat
  changelist_id : Int
  review_version : Int
  idempotency_key : String
  status : JDStatus
  created_at : Int
  updated_at : Int
deriving DecidableEq, Repr

/-- The `jobs` table (the UNIQUE(idempotency_key) constraint is enforced
by the insert path). -/
structure JDState where
  rows : List JDRow
  nextId : Nat
deriving DecidableEq, Repr

def initState : JDState := ⟨[], 1⟩

/-- `JobSubmissionResult` dataclass. -/
structure JobSubmissionResult where
  status : String
  job : JDRow
  created : Bool
deriving DecidableEq, Repr

/-- `JobDispatchStore._get_by_idempotency_key`. -/
def getByKey (s : JDState) (key : String) : Option JDRow :=
  s.rows.find? fun r => r.idempotency_key == key

/-- SQL comparator `review_version DESC, id DESC`: `a` strictly precedes
`b`. -/
def newer (a b : JDRow) : Bool :=
  a.review_version > b.review_version ||
    (a.review_version == b.review_version && a.id > b.id)

def priorSuccessStep (best : Option JDRow) (r : JDRow) : Option JDRow :=
  match best with
  | none => some r
  | some b => if newer r b then some r else some b

/-- The `prior_success` query of `submit_job`: most recent succeeded row
of the changelist under `review_version DESC, id DESC`. -/
def priorSuccess (s : JDState) (changelist_id : Int) : Option JDRow :=
  (s.rows.filter fun r =>
    r.changelist_id == changelist_id && r.status == JDStatus.succeeded).foldl
    priorSuccessStep none

/-- The `INSERT ... ON CONFLICT(idempotency_key) DO NOTHING` tail of
`submit_job`: `created` is true iff the insert took effect, and the
returned job is re-read by key. -/
def insertJob (s : JDState) (changelist_id review_version : Int)
    (idempotency_key : String) (now : Int) : JobSubmissionResult × JDState :=
  match getByKey s idempotency_key with
  | some e => (⟨"duplicate_idempotency", e, false⟩, s)
  | none =>
      let row : JDRow :=
        ⟨s.nextId, changelist_id, review_version, idempotency_key, .queued, now, now⟩
      (⟨"created", row, true⟩, ⟨s.rows ++ [row], s.nextId + 1⟩)

/-- `JobDispatchStore.submit_job`. -/
def submit_job (s : JDState) (changelist_id review_version : Int)
    (idempotency_key : String) (rerun_requested : Bool) (now : Int) :
    JobSubmissionResult × JDState :=
  match getByKey s idempotency_key with
  | some existing => (⟨"duplicate_idempotency", existing, false⟩, s)
  | none =>
      match priorSuccess s changelist_id with
      | some prior =>
          if review_version == prior.review_version then
            (⟨"already_succeeded_same_version", prior, false⟩, s)
          else if review_version > prior.review_version && !rerun_requested then
            (⟨"rerun_required", prior, false⟩, s)
          else if review_version < prior.review_version then
            (⟨"stale_review_version", prior, false⟩, s)
          else
            insertJob s changelist_id review_version idempotency_key now
      | none => insertJob s changelist_id review_version idempotency_key now

/-- `JobDispatchStore.mark_succeeded`: unconditional UPDATE by id. -/
def mark_succeeded (s : JDState) (job_id : Nat) (now : Int) : JDState :=
  ⟨s.rows.map fun r =>
      if r.id == job_id then { r with status := .succeeded, updated_at := now }
      else r,
    s.nextId⟩

/-- `a` is no later than `b` under `review_version DESC, id DESC` read
backwards (so `b` is at least as recent). -/
def jdLE (a b : JDRow) : Prop :=
  a.review_version < b.review_version
    ∨ (a.review_version = b.review_version ∧ a.id ≤ b.id)

theorem jdLE_refl (a : JDRow) : jdLE a a := by
  unfold jdLE
  omega

theorem newer_true_jdLE {a b : JDRow} (h : newer a b = true) : jdLE b a := by
  unfold newer at h
  simp only [Bool.or_eq_true, Bool.and_eq_true, beq_iff_eq,
    decide_eq_true_eq] at h
  unfold jdLE
  omega

theorem newer_false_jdLE {a b : JDRow} (h : newer a b = false) : jdLE a b := by
  unfold newer at h
  simp only [Bool.or_eq_false_iff, Bool.and_eq_false_iff, beq_iff_eq,
    decide_eq_false_iff_not, beq_eq_false_iff_ne, ne_eq] at h
  unfold jdLE
  rcases h with ⟨h1, h2 | h2⟩ <;> omega

theorem jdLE_trans {a b c : JDRow} (h1 : jdLE a b) (h2 : jdLE b c) :
    jdLE a c := by
  unfold jdLE at *
  omega

theorem foldl_priorSuccessStep_spec (l : List JDRow) (b : JDRow) :
    ∃ c, l.foldl priorSuccessStep (some b) = some c ∧ (c = b ∨ c ∈ l)
      ∧ jdLE b c ∧ ∀ e ∈ l, jdLE e c := by
  induction l generalizing b with
  | nil => exact ⟨b, rfl, Or.inl rfl, jdLE_refl b, by simp⟩
  | cons r rest ih =>
      by_cases hrb : newer r b = true
      · obtain ⟨c, hc, hmem, hbc, hall⟩ := ih r
        refine ⟨c, by simpa [priorSuccessStep, hrb] using hc, ?_,
          jdLE_trans (newer_true_jdLE hrb) hbc, ?_⟩
        · rcases hmem with rfl | hmem
          · exact Or.inr (List.mem_cons_self _ _)
          · exact Or.inr (List.mem_cons_of_mem _ hmem)
        · intro e he
          rcases List.mem_cons.mp he with rfl | he
          · exact hbc
          · exact hall e he
      · rw [Bool.not_eq_true] at hrb
        obtain ⟨c, hc, hmem, hbc, hall⟩ := ih b
        refine ⟨c, by simpa [priorSuccessStep, hrb] using hc, ?_, hbc, ?_⟩
        · rcases hmem with rfl | hmem
          · exact Or.inl rfl
          · exact Or.inr (List.mem_cons_of_mem _ hmem)
        · intro e he
          rcases List.mem_cons.mp he with rfl | he
          · exact jdLE_trans (newer_false_jdLE hrb) hbc
          · exact hall e he

theorem priorSuccess_spec (s : JDState) (changelist_id : Int) (p : JDRow)
    (h : priorSuccess s changelist_id = some p) :
    p ∈ s.rows ∧ p.changelist_id = changelist_id ∧ p.status = .succeeded
      ∧ ∀ q ∈ s.rows, q.changelist_id = changelist_id → q.status = .succeeded →
          jdLE q p := by
  unfold priorSuccess at h
  have hfmem : ∀ x ∈ s.rows.filter (fun r =>
      r.changelist_id == changelist_id && r.status == JDStatus.succeeded),
      x ∈ s.rows ∧ x.changelist_id = changelist_id ∧ x.status = .succeeded := by
    intro x hx
    obtain ⟨hx1, hx2⟩ := List.mem_filter.mp hx
    simp only [Bool.and_eq_true, beq_iff_eq] at hx2
    exact ⟨hx1, hx2.1, hx2.2⟩
  cases hl : s.rows.filter (fun r =>
      r.changelist_id == changelist_id && r.status == JDStatus.succeeded) with
  | nil => rw [hl] at h; simp at h
  | cons x rest =>
      rw [hl] at h
      obtain ⟨c, hc, hmem, hbc, hall⟩ := foldl_priorSuccessStep_spec rest x
      have : some c = some p := by
        rw [← h]
        simpa [priorSuccessStep] using hc.symm
      obtain rfl := Option.some_injective _ this
      have hcmem : c ∈ s.rows.filter (fun r =>
          r.changelist_id == changelist_id && r.status == JDStatus.succeeded) := by
        rw [hl]
        rcases hmem with rfl | hmem
        · exact List.mem_cons_self _ _
        · exact List.mem_cons_of_mem _ hmem
      obtain ⟨hm1, hm2, hm3⟩ := hfmem c hcmem
      refine ⟨hm1, hm2, hm3, ?_⟩
      intro q hq hq1 hq2
      have hqf : q ∈ s.rows.filter (fun r =>
          r.changelist_id == changelist_id && r.status == JDStatus.succeeded) :=
        List.mem_filter.mpr ⟨hq, by simp [hq1, hq2]⟩
      rw [hl] at hqf
      rcases List.mem_cons.mp hqf with rfl | hqf
      · exact hbc
      · exact hall q hqf

end JobDispatch

namespace JobDispatch

/-- C3: `submit_job` returns `duplicate_idempotency` with the existing
row whenever the idempotency key is taken; otherwise, against the most
recent succeeded row of the changelist (maximal under `review_version
DESC, id DESC`), an equal version yields `already_succeeded_same_version`,
a greater version without `rerun_requested` yields `rerun_required`, and
a smaller version yields `stale_review_version`, none inserting anything;
in every remaining case a fresh queued row is inserted and the result is
`created` with `created = true` (sequentially, the guarded insert always
takes effect once the key was found free). -/
theorem c3_submit_job (s : JDState) (cl rv : Int) (key : String)
    (rerun : Bool) (now : Int) :
    ((getByKey s key).isSome →
        (submit_job s cl rv key rerun now).1.status = "duplicate_idempotency"
      ∧ (submit_job s cl rv key rerun now).1.created = false
      ∧ getByKey s key = some (submit_job s cl rv key rerun now).1.job
      ∧ (submit_job s cl rv key rerun now).2 = s)
    ∧ (getByKey s key = none →
        (∀ p, priorSuccess s cl = some p →
            (p ∈ s.rows ∧ p.changelist_id = cl ∧ p.status = .succeeded
              ∧ ∀ q ∈ s.rows, q.changelist_id = cl → q.status = .succeeded →
                  jdLE q p)
          ∧ (rv = p.review_version →
              (submit_job s cl rv key rerun now).1.status
                  = "already_succeeded_same_version"
              ∧ (submit_job s cl rv key rerun now).1.created = false
              ∧ (submit_job s cl rv key rerun now).2 = s)
          ∧ (rv > p.review_version → rerun = false →
              (submit_job s cl rv key rerun now).1.status = "rerun_required"
              ∧ (submit_job s cl rv key rerun now).1.created = false
              ∧ (submit_job s cl rv key rerun now).2 = s)
          ∧ (rv < p.review_version →
              (submit_job s cl rv key rerun now).1.status = "stale_review_version"
              ∧ (submit_job s cl rv key rerun now).1.created = false
              ∧ (submit_job s cl rv key rerun now).2 = s)
          ∧ (rv > p.review_version → rerun = true →
              (submit_job s cl rv key rerun now).1.status = "created"
              ∧ (submit_job s cl rv key rerun now).1.created = true
              ∧ (submit_job s cl rv key rerun now).2.rows
                  = s.rows ++ [⟨s.nextId, cl, rv, key, .queued, now, now⟩]))
        ∧ (priorSuccess s cl = none →
            (submit_job s cl rv key rerun now).1.status = "created"
            ∧ (submit_job s cl rv key rerun now).1.created = true
            ∧ (submit_job s cl rv key rerun now).2.rows
                = s.rows ++ [⟨s.nextId, cl, rv, key, .queued, now, now⟩])) := by
  cases hk : getByKey s key with
  | some e =>
      refine ⟨fun _ => ?_, fun hnone => by simp [hk] at hnone⟩
      simp [submit_job, hk]
  | none =>
      refine ⟨fun hsome => by simp [hk] at hsome, fun _ => ?_⟩
      constructor
      · intro p hp
        refine ⟨priorSuccess_spec s cl p hp, ?_, ?_, ?_, ?_⟩
        · intro heq
          have h1 : (rv == p.review_version) = true := by simp [heq]
          simp [submit_job, hk, hp, h1]
        · intro hgt hrerun
          have h1 : (rv == p.review_version) = false := by simp; omega
          have h2 : (rv > p.review_version && !rerun) = true := by
            simp [hrerun]
            omega
          simp [submit_job, hk, hp, h1, h2]
        · intro hlt
          have h1 : (rv == p.review_version) = false := by simp; omega
          have h2 : (rv > p.review_version && !rerun) = false := by
            simp
            intro h
            omega
          simp [submit_job, hk, hp, h1, h2, hlt]
        · intro hgt hrerun
          have h1 : (rv == p.review_version) = false := by simp; omega
          have h2 : (rv > p.review_version && !rerun) = false := by
            simp [hrerun]
          have h3 : ¬(rv < p.review_version) := by omega
          simp [submit_job, hk, hp, h1, h2, h3, insertJob]
      · intro hp
        simp [submit_job, hk, hp, insertJob]

/-- A dispatch table holding one succeeded review of changelist 77 at
version 1. -/
def c3state : JDState :=
  mark_succeeded (submit_job initState 77 1 "cl77-v1" false 0).2 1 5

/-- Witness for `c3_submit_job`: submitting version 2 without
`rerun_requested` over the succeeded version 1 of changelist 77. -/
theorem c3_submit_job_witness :
    getByKey c3state "cl77-v2" = none
    ∧ priorSuccess c3state 77 =
        some ⟨1, 77, 1, "cl77-v1", .succeeded, 0, 5⟩
    ∧ ((2 : Int) > (1 : Int))
    ∧ ((submit_job c3state 77 2 "cl77-v2" false 10).1.status = "rerun_required"
      ∧ (submit_job c3state 77 2 "cl77-v2" false 10).1.created = false
      ∧ (submit_job c3state 77 2 "cl77-v2" false 10).2 = c3state) :=
  ⟨by decide, by decide, by decide,
    ((((c3_submit_job c3state 77 2 "cl77-v2" false 10).2 (by decide)).1
        ⟨1, 77, 1, "cl77-v1", .succeeded, 0, 5⟩ (by decide)).2.2.1)
      (by decide) rfl⟩

/-- C10: `mark_succeeded` sets the row with the given id to `succeeded`
whatever its current status, leaves every other row untouched, and is a
silent no-op (state unchanged) when no row has that id; its return type
carries no result and no diagnostics. -/
theorem c10_mark_succeeded (s : JDState) (jid : Nat) (now : Int) :
    ((mark_succeeded s jid now).rows.length = s.rows.length)
    ∧ (∀ i (hi : i < s.rows.length)
          (hi2 : i < (mark_succeeded s jid now).rows.length),
        ((s.rows.get ⟨i, hi⟩).id = jid →
          (mark_succeeded s jid now).rows.get ⟨i, hi2⟩
            = { s.rows.get ⟨i, hi⟩ with status := .succeeded, updated_at := now })
        ∧ ((s.rows.get ⟨i, hi⟩).id ≠ jid →
          (mark_succeeded s jid now).rows.get ⟨i, hi2⟩ = s.rows.get ⟨i, hi⟩))
    ∧ ((∀ r ∈ s.rows, r.id ≠ jid) → mark_succeeded s jid now = s) := by
  refine ⟨by simp [mark_succeeded], ?_, ?_⟩
  · intro i hi hi2
    constructor
    · intro hid
      simp only [List.get_eq_getElem] at hid
      simp only [mark_succeeded, List.get_eq_getElem, List.getElem_map]
      rw [if_pos (by simp [hid])]
    · intro hid
      simp only [List.get_eq_getElem] at hid
      simp only [mark_succeeded, List.get_eq_getElem, List.getElem_map]
      rw [if_neg (by simpa using hid)]
  · intro hall
    simp only [mark_succeeded]
    have : s.rows.map (fun r =>
        if r.id == jid then { r with status := JDStatus.succeeded, updated_at := now }
        else r) = s.rows.map id := by
      apply List.map_congr_left
      intro r hr
      rw [if_neg (by simpa using hall r hr)]
      rfl
    rw [this, List.map_id]

/-- Witness for `c10_mark_succeeded`: marking a queued row and asking
about a missing id. -/
theorem c10_mark_succeeded_witness :
    ((mark_succeeded c3state 9 11).rows.length = c3state.rows.length)
    ∧ (∀ i (hi : i < c3state.rows.length)
          (hi2 : i < (mark_succeeded c3state 9 11).rows.length),
        ((c3state.rows.get ⟨i, hi⟩).id = 9 →
          (mark_succeeded c3state 9 11).rows.get ⟨i, hi2⟩
            = { c3state.rows.get ⟨i, hi⟩ with
                  status := .succeeded, updated_at := 11 })
        ∧ ((c3state.rows.get ⟨i, hi⟩).id ≠ 9 →
          (mark_succeeded c3state 9 11).rows.get ⟨i, hi2⟩
            = c3state.rows.get ⟨i, hi⟩))
    ∧ ((∀ r ∈ c3state.rows, r.id ≠ 9) → mark_succeeded c3state 9 11 = c3state) :=
  c10_mark_succeeded c3state 9 11

end JobDispatch

namespace Outbox

/-- Outbox row status (`status IN ('queued','sent')`). -/
inductive OBStatus
  | queued
  | sent
deriving DecidableEq, Repr

/-- One row of `notification_outbox` (src/notification_outbox.py);
`notification_id` stores the provider message id. -/
structure OBRow where
  id : Nat
  changelist_id : Int
  recipient : String
  review_version : Int
  payload : String
  idempotency_key : String
  status : OBStatus
  notification_id : Option String
  notified_at : Option Int
  created_at : Int
  updated_at : Int
deriving DecidableEq, Repr

structure OBState where
  rows : List OBRow
  nextId : Nat
deriving DecidableEq, Repr

/-- The duck-typed notification provider: `send` maps (recipient,
payload, idempotency_key) to a provider message id. -/
structure Provider where
  send : String → String → String → String
  lookup : String → Bool

/-- `DeliveryResult` dataclass. -/
structure DeliveryResult where
  status : String
  row_id : Nat
  provider_message_id : Option String
deriving DecidableEq, Repr

/-- Trace of provider interactions during one operation, recorded so the
theorems can state when no send (or no contact at all) happens. -/
structure ProviderCalls where
  sends : List (String × String × String)
  lookups : List String
deriving DecidableEq, Repr

def getRow (s : OBState) (row_id : Nat) : Option OBRow :=
  s.rows.find? fun r => r.id == row_id

/-- The reconcile UPDATE: mark sent without touching `notification_id`. -/
def markSentRows (rows : List OBRow) (row_id : Nat) (now : Int) : List OBRow :=
  rows.map fun r =>
    if r.id == row_id then
      { r with status := .sent, notified_at := some now, updated_at := now }
    else r

/-- The send UPDATE: store the returned id and mark sent. -/
def storeSendRows (rows : List OBRow) (row_id : Nat) (mid : String)
    (now : Int) : List OBRow :=
  rows.map fun r =>
    if r.id == row_id then
      { r with notification_id := some mid, status := .sent,
               notified_at := some now, updated_at := now }
    else r

/-- `NotificationOutboxStore.deliver_row`; `none` models the `assert
row is not None` failing. -/
def deliver_row (s : OBState) (row_id : Nat) (p : Provider) (now : Int) :
    Option (DeliveryResult × OBState × ProviderCalls) :=
  match getRow s row_id with
  | none => none
  | some row =>
      if row.notified_at.isSome then
        some (⟨"already_sent", row_id, row.notification_id⟩, s, ⟨[], []⟩)
      else
        match row.notification_id with
        | some mid =>
            if p.lookup mid then
              some (⟨"reconciled", row_id, some mid⟩,
                ⟨markSentRows s.rows row_id now, s.nextId⟩, ⟨[], [mid]⟩)
            else
              some (⟨"sent", row_id,
                  some (p.send row.recipient row.payload row.idempotency_key)⟩,
                ⟨storeSendRows s.rows row_id
                    (p.send row.recipient row.payload row.idempotency_key) now,
                  s.nextId⟩,
                ⟨[(row.recipient, row.payload, row.idempotency_key)], [mid]⟩)
        | none =>
            some (⟨"sent", row_id,
                some (p.send row.recipient row.payload row.idempotency_key)⟩,
              ⟨storeSendRows s.rows row_id
                  (p.send row.recipient row.payload row.idempotency_key) now,
                s.nextId⟩,
              ⟨[(row.recipient, row.payload, row.idempotency_key)], []⟩)

theorem getRow_map (s : OBState) (rid : Nat) (row : OBRow)
    (f : OBRow → OBRow) (hf : ∀ r, (f r).id = r.id)
    (h : getRow s rid = some row) :
    getRow ⟨s.rows.map f, s.nextId⟩ rid = some (f row) := by
  unfold getRow at *
  simp only
  rw [List.find?_map]
  have hp : ((fun r : OBRow => r.id == rid) ∘ f) = fun r : OBRow => r.id == rid := by
    funext r
    simp [Function.comp, hf r]
  rw [hp, h, Option.map_some']

theorem getRow_id (s : OBState) (rid : Nat) (row : OBRow)
    (h : getRow s rid = some row) : row.id = rid := by
  unfold getRow at h
  have := List.find?_some h
  simpa using this

end Outbox

namespace Outbox

/-- C4: for every existing outbox row, `deliver_row` (1) returns
`already_sent` with the stored provider message id and contacts the
provider in no way when `notified_at` is already set; (2) returns
`reconciled`, marks the row sent without a new send, when a stored id is
confirmed by `lookup`; (3) otherwise calls `send` exactly once with the
row's `idempotency_key`, stores the returned id and marks the row sent.
In cases (2) and (3) the row ends with `notified_at` set, so by (1) any
later delivery returns `already_sent` without touching it: the row is
finalized exactly once. -/
theorem c4_deliver_row (s : OBState) (row_id : Nat) (p : Provider)
    (now : Int) (row : OBRow) (hrow : getRow s row_id = some row) :
    (row.notified_at.isSome →
      deliver_row s row_id p now
        = some (⟨"already_sent", row_id, row.notification_id⟩, s, ⟨[], []⟩))
    ∧ (∀ mid, row.notified_at = none → row.notification_id = some mid →
        p.lookup mid = true →
        deliver_row s row_id p now
          = some (⟨"reconciled", row_id, some mid⟩,
              ⟨markSentRows s.rows row_id now, s.nextId⟩, ⟨[], [mid]⟩)
        ∧ getRow ⟨markSentRows s.rows row_id now, s.nextId⟩ row_id
            = some { row with status := .sent, notified_at := some now,
                              updated_at := now })
    ∧ (∀ mid, row.notified_at = none → row.notification_id = some mid →
        p.lookup mid = false →
        deliver_row s row_id p now
          = some (⟨"sent", row_id,
              some (p.send row.recipient row.payload row.idempotency_key)⟩,
              ⟨storeSendRows s.rows row_id
                  (p.send row.recipient row.payload row.idempotency_key) now,
                s.nextId⟩,
              ⟨[(row.recipient, row.payload, row.idempotency_key)], [mid]⟩)
        ∧ getRow ⟨storeSendRows s.rows row_id
              (p.send row.recipient row.payload row.idempotency_key) now,
              s.nextId⟩ row_id
            = some { row with
                notification_id :=
                  some (p.send row.recipient row.payload row.idempotency_key),
                status := .sent, notified_at := some now, updated_at := now })
    ∧ (row.notified_at = none → row.notification_id = none →
        deliver_row s row_id p now
          = some (⟨"sent", row_id,
              some (p.send row.recipient row.payload row.idempotency_key)⟩,
              ⟨storeSendRows s.rows row_id
                  (p.send row.recipient row.payload row.idempotency_key) now,
                s.nextId⟩,
              ⟨[(row.recipient, row.payload, row.idempotency_key)], []⟩)
        ∧ getRow ⟨storeSendRows s.rows row_id
              (p.send row.recipient row.payload row.idempotency_key) now,
              s.nextId⟩ row_id
            = some { row with
                notification_id :=
                  some (p.send row.recipient row.payload row.idempotency_key),
                status := .sent, notified_at := some now, updated_at := now }) := by
  have hid : row.id = row_id := getRow_id s row_id row hrow
  refine ⟨?_, ?_, ?_, ?_⟩
  · intro hset
    simp [deliver_row, hrow, hset]
  · intro mid hnone hmid hlook
    refine ⟨by simp [deliver_row, hrow, hnone, hmid, hlook], ?_⟩
    have := getRow_map s row_id row
      (fun r => if r.id == row_id then
        { r with status := .sent, notified_at := some now, updated_at := now }
      else r) (by intro r; dsimp; split <;> rfl) hrow
    rw [markSentRows]
    rw [this]
    simp [hid]
  · intro mid hnone hmid hlook
    refine ⟨by simp [deliver_row, hrow, hnone, hmid, hlook], ?_⟩
    have := getRow_map s row_id row
      (fun r => if r.id == row_id then
        { r with
            notification_id :=
              some (p.send row.recipient row.payload row.idempotency_key),
            status := .sent, notified_at := some now, updated_at := now }
      else r) (by intro r; dsimp; split <;> rfl) hrow
    rw [storeSendRows]
    rw [this]
    simp [hid]
  · intro hnone hmid
    refine ⟨by simp [deliver_row, hrow, hnone, hmid], ?_⟩
    have := getRow_map s row_id row
      (fun r => if r.id == row_id then
        { r with
            notification_id :=
              some (p.send row.recipient row.payload row.idempotency_key),
            status := .sent, notified_at := some now, updated_at := now }
      else r) (by intro r; dsimp; split <;> rfl) hrow
    rw [storeSendRows]
    rw [this]
    simp [hid]

/-- Crash-window row: provider message id stored, `notified_at` null. -/
def c4row : OBRow :=
  ⟨1, 4, "x@example.com", 7, "payload-json", "deadbeef", .queued,
    some "msg-preexisting", none, 0, 0⟩

def c4state : OBState := ⟨[c4row], 2⟩

/-- A provider that knows `msg-preexisting` and would mint `msg-new`. -/
def c4provider : Provider :=
  ⟨fun _ _ _ => "msg-new", fun m => m == "msg-preexisting"⟩

/-- Witness for `c4_deliver_row`: reconciling the crash-window row. -/
theorem c4_deliver_row_witness :
    getRow c4state 1 = some c4row
    ∧ ((c4row.notified_at.isSome →
          deliver_row c4state 1 c4provider 9
            = some (⟨"already_sent", 1, c4row.notification_id⟩, c4state, ⟨[], []⟩))
      ∧ (∀ mid, c4row.notified_at = none → c4row.notification_id = some mid →
          c4provider.lookup mid = true →
          deliver_row c4state 1 c4provider 9
            = some (⟨"reconciled", 1, some mid⟩,
                ⟨markSentRows c4state.rows 1 9, c4state.nextId⟩, ⟨[], [mid]⟩)
          ∧ getRow ⟨markSentRows c4state.rows 1 9, c4state.nextId⟩ 1
              = some { c4row with status := .sent, notified_at := some 9,
                                  updated_at := 9 })
      ∧ (∀ mid, c4row.notified_at = none → c4row.notification_id = some mid →
          c4provider.lookup mid = false →
          deliver_row c4state 1 c4provider 9
            = some (⟨"sent", 1,
                some (c4provider.send c4row.recipient c4row.payload
                  c4row.idempotency_key)⟩,
                ⟨storeSendRows c4state.rows 1
                    (c4provider.send c4row.recipient c4row.payload
                      c4row.idempotency_key) 9,
                  c4state.nextId⟩,
                ⟨[(c4row.recipient, c4row.payload, c4row.idempotency_key)], [mid]⟩)
          ∧ getRow ⟨storeSendRows c4state.rows 1
                (c4provider.send c4row.recipient c4row.payload
                  c4row.idempotency_key) 9,
                c4state.nextId⟩ 1
              = some { c4row with
                  notification_id :=
                    some (c4provider.send c4row.recipient c4row.payload
                      c4row.idempotency_key),
                  status := .sent, notified_at := some 9, updated_at := 9 })
      ∧ (c4row.notified_at = none → c4row.notification_id = none →
          deliver_row c4state 1 c4provider 9
            = some (⟨"sent", 1,
                some (c4provider.send c4row.recipient c4row.payload
                  c4row.idempotency_key)⟩,
                ⟨storeSendRows c4state.rows 1
                    (c4provider.send c4row.recipient c4row.payload
                      c4row.idempotency_key) 9,
                  c4state.nextId⟩,
                ⟨[(c4row.recipient, c4row.payload, c4row.idempotency_key)], []⟩)
          ∧ getRow ⟨storeSendRows c4state.rows 1
                (c4provider.send c4row.recipient c4row.payload
                  c4row.idempotency_key) 9,
                c4state.nextId⟩ 1
              = some { c4row with
                  notification_id :=
                    some (c4provider.send c4row.recipient c4row.payload
                      c4row.idempotency_key),
                  status := .sent, notified_at := some 9, updated_at := 9 })) :=
  ⟨by decide, c4_deliver_row c4state 1 c4provider 9 c4row (by decide)⟩

end Outbox

/-- For a predicate insensitive to `f`, `find?` over a mapped list is the
mapped `find?`. -/
theorem find?_map_insensitive {α : Type} (l : List α) (p : α → Bool)
    (f : α → α) (hf : ∀ x, p (f x) = p x) :
    (l.map f).find? p = (l.find? p).map f := by
  rw [List.find?_map]
  have : (p ∘ f) = p := funext hf
  rw [this]

namespace FailurePipeline

/-- `pipeline_runs.status` CHECK constraint. -/
inductive RunStatus
  | running
  | failed
  | completed
deriving DecidableEq, Repr

/-- `dead_letter_entries.status` CHECK constraint (`open` is a Lean
keyword, hence `open_`). -/
inductive DLStatus
  | open_
  | replaying
  | resolved
  | escalated
deriving DecidableEq, Repr

/-- One row of `pipeline_runs` (src/failure_pipeline.py). -/
structure RunRow where
  id : Nat
  payload_ref : String
  current_stage : String
  status : RunStatus
  created_at : Int
  updated_at : Int
deriving DecidableEq, Repr

/-- One row of `dead_letter_entries`; `error_metadata` holds the
canonical-JSON serialization as an opaque string. -/
structure DLRow where
  id : Nat
  run_id : Nat
  failed_stage : String
  error_class : String
  error_message : Option String
  error_metadata : String
  original_payload_ref : String
  remediation_evidence : Option String
  replay_start_stage : Option String
  replay_count : Nat
  resolution_notes : Option String
  status : DLStatus
  escalated_at : Option Int
  resolved_at : Option Int
  created_at : Int
  updated_at : Int
deriving DecidableEq, Repr

/-- `FailureHandlingPipeline` state: the configured stage list plus both
tables. -/
structure FPState where
  stages : List String
  runs : List RunRow
  dls : List DLRow
  nextRunId : Nat
  nextDlId : Nat
deriving DecidableEq, Repr

/-- `ReplayPlan` dataclass. -/
structure ReplayPlan where
  dead_letter_id : Nat
  run_id : Nat
  restart_stage : String
  full_restart : Bool
deriving DecidableEq, Repr

def initState (stages : List String) : FPState := ⟨stages, [], [], 1, 1⟩

/-- `FailureHandlingPipeline.get_dead_letter` (without the assert). -/
def getDeadLetter (s : FPState) (dl_id : Nat) : Option DLRow :=
  s.dls.find? fun d => d.id == dl_id

/-- `FailureHandlingPipeline._get_run` (without the assert). -/
def getRun (s : FPState) (run_id : Nat) : Option RunRow :=
  s.runs.find? fun r => r.id == run_id

/-- The `UPDATE pipeline_runs SET current_stage = ?, status = ?` shape
shared by several operations. -/
def updateRun (runs : List RunRow) (run_id : Nat) (stage : String)
    (st : RunStatus) (now : Int) : List RunRow :=
  runs.map fun r =>
    if r.id == run_id then
      { r with current_stage := stage, status := st, updated_at := now }
    else r

/-- `FailureHandlingPipeline.create_run`: a running row at the first
configured stage. -/
def create_run (s : FPState) (payload_ref : String) (now : Int) :
    Nat × FPState :=
  let row : RunRow := ⟨s.nextRunId, payload_ref, s.stages.headI, .running, now, now⟩
  (s.nextRunId,
    ⟨s.stages, s.runs ++ [row], s.dls, s.nextRunId + 1, s.nextDlId⟩)

/-- `FailureHandlingPipeline.record_failure`. The outer `Option` is the
`ValueError` on an unknown stage or the `_get_run` assert; the inner
`Option DLRow` is the `None` returned for retryable failures. Python's
`original_payload_ref or ...` treats the empty string as absent. -/
def record_failure (s : FPState) (run_id : Nat)
    (failed_stage error_class error_message error_metadata : String)
    (retryable : Bool) (original_payload_ref : Option String) (now : Int) :
    Option (Option DLRow × FPState) :=
  if failed_stage ∈ s.stages then
    let runs' := updateRun s.runs run_id failed_stage .failed now
    if retryable then
      some (none, ⟨s.stages, runs', s.dls, s.nextRunId, s.nextDlId⟩)
    else
      let fallback := (getRun s run_id).map (·.payload_ref)
      let pr? : Option String :=
        match original_payload_ref with
        | some p => if p = "" then fallback else some p
        | none => fallback
      match pr? with
      | none => none
      | some payload_ref =>
          let dl : DLRow :=
            ⟨s.nextDlId, run_id, failed_stage, error_class, some error_message,
              error_metadata, payload_ref, none, none, 0, none, .open_, none,
              none, now, now⟩
          some (some dl,
            ⟨s.stages, runs', s.dls ++ [dl], s.nextRunId, s.nextDlId + 1⟩)
  else none

/-- `FailureHandlingPipeline.start_replay`; `none` is the
`get_dead_letter` assert, `Except.error` the `ValueError` raised without
remediation evidence. -/
def start_replay (s : FPState) (dl_id : Nat) (full_restart : Bool)
    (now : Int) : Option (Except String (ReplayPlan × FPState)) :=
  match getDeadLetter s dl_id with
  | none => none
  | some dl =>
      if dl.remediation_evidence.isNone then
        some (.error "remediation evidence required before replay")
      else
        let restart_stage := if full_restart then s.stages.headI
                             else dl.failed_stage
        let dls' := s.dls.map fun d =>
          if d.id == dl_id then
            { d with status := .replaying,
                     replay_start_stage := some restart_stage,
                     replay_count := d.replay_count + 1, updated_at := now }
          else d
        let runs' := updateRun s.runs dl.run_id restart_stage .running now
        some (.ok (⟨dl_id, dl.run_id, restart_stage, full_restart⟩,
          ⟨s.stages, runs', dls', s.nextRunId, s.nextDlId⟩))

/-- `FailureHandlingPipeline.fail_replay`: escalation is decided against
the error class currently stored on the dead letter. -/
def fail_replay (s : FPState) (dl_id : Nat)
    (error_class error_message error_metadata : String) (retryable : Bool)
    (now : Int) : Option FPState :=
  match getDeadLetter s dl_id with
  | none => none
  | some dl =>
      let escalated := !retryable && error_class == dl.error_class
      let runs' := updateRun s.runs dl.run_id dl.failed_stage .failed now
      let dls' := s.dls.map fun d =>
        if d.id == dl_id then
          { d with status := if escalated then .escalated else .open_,
                   error_class := error_class,
                   error_message := some error_message,
                   error_metadata := error_metadata,
                   escalated_at := if escalated then some now else d.escalated_at,
                   updated_at := now }
        else d
      some ⟨s.stages, runs', dls', s.nextRunId, s.nextDlId⟩

end FailurePipeline

namespace FailurePipeline

theorem getDeadLetter_id (s : FPState) (dl_id : Nat) (dl : DLRow)
    (h : getDeadLetter s dl_id = some dl) : (dl.id == dl_id) = true := by
  unfold getDeadLetter at h
  have := List.find?_some h
  simpa using this

/-- C5 (amended): `fail_replay` always sets the run back to `failed` at
the dead letter's `failed_stage` and updates the error context; the dead
letter transitions to `escalated` with `escalated_at` stamped if and only
if the new error is non-retryable and its `error_class` equals the error
class *currently stored* on the dead letter (which each `fail_replay`
overwrites); otherwise it returns to `open`. -/
theorem c5_fail_replay (s : FPState) (dl_id : Nat)
    (ec em emeta : String) (retryable : Bool) (now : Int) (dl : DLRow)
    (hdl : getDeadLetter s dl_id = some dl) :
    ∃ s', fail_replay s dl_id ec em emeta retryable now = some s'
      ∧ getRun s' dl.run_id = (getRun s dl.run_id).map
          (fun r => { r with current_stage := dl.failed_stage,
                             status := .failed, updated_at := now })
      ∧ getDeadLetter s' dl_id = some
          { dl with
              status := if retryable = false ∧ ec = dl.error_class
                        then .escalated else .open_,
              error_class := ec,
              error_message := some em,
              error_metadata := emeta,
              escalated_at := if retryable = false ∧ ec = dl.error_class
                              then some now else dl.escalated_at,
              updated_at := now } := by
  have hid : (dl.id == dl_id) = true := getDeadLetter_id s dl_id dl hdl
  rw [fail_replay, hdl]
  simp only
  refine ⟨_, rfl, ?_, ?_⟩
  · unfold getRun updateRun
    simp only
    rw [find?_map_insensitive _ _ _ (by intro x; split <;> rfl)]
    cases hr : s.runs.find? fun r => r.id == dl.run_id with
    | none => rfl
    | some r =>
        have hrid : r.id = dl.run_id := by
          have := List.find?_some hr
          simpa using this
        simp [hrid]
  · unfold getDeadLetter
    simp only
    rw [find?_map_insensitive _ _ _ (by intro x; split <;> rfl)]
    unfold getDeadLetter at hdl
    rw [hdl]
    simp only [Option.map_some', Option.some.injEq, hid, if_pos rfl]
    by_cases hesc : retryable = false ∧ ec = dl.error_class
    · have hb : (!retryable && (ec == dl.error_class)) = true := by
        simp [hesc.1, hesc.2]
      simp [hb, if_pos hesc]
    · have hb : (!retryable && (ec == dl.error_class)) = false := by
        cases retryable
        · have hne : ¬(ec = dl.error_class) := fun h => hesc ⟨rfl, h⟩
          simp [hne]
        · simp
      simp [hb, if_neg hesc]

end FailurePipeline

namespace FailurePipeline

def c5s1 : FPState :=
  (create_run (initState ["ingest", "publish"]) "payload://p" 0).2

def c5s2 : FPState :=
  ((record_failure c5s1 1 "publish" "ClassA" "boom" "meta" false none 1).map
    Prod.snd).getD c5s1

def c5s3 : FPState :=
  (fail_replay c5s2 1 "ClassB" "boom2" "meta" false 2).getD c5s2

def c5s4 : FPState :=
  (fail_replay c5s3 1 "ClassB" "boom3" "meta" false 3).getD c5s3

/-- C5 (counterexample): the failure is first dead-lettered with
original `error_class = "ClassA"`; a first non-retryable `fail_replay`
with `"ClassB"` returns the dead letter to `open` (and overwrites the
stored class), and a second non-retryable `fail_replay` with `"ClassB"`
escalates — although `"ClassB"` differs from the original `"ClassA"`, so
escalation is not decided against the class recorded when the failure
was first dead-lettered. -/
theorem c5_counterexample :
    ((record_failure c5s1 1 "publish" "ClassA" "boom" "meta" false none 1).map
        (fun t => t.1.map fun d => (d.error_class, d.status)))
      = some (some ("ClassA", .open_))
    ∧ ((getDeadLetter c5s3 1).map fun d => (d.status, d.error_class))
        = some (.open_, "ClassB")
    ∧ ((getDeadLetter c5s4 1).map fun d => (d.status, d.error_class, d.escalated_at))
        = some (.escalated, "ClassB", some 3)
    ∧ ("ClassB" ≠ "ClassA") := by
  decide

/-- Witness for `c5_fail_replay`: a non-retryable replay failure with a
fresh error class reopens the dead letter. -/
theorem c5_fail_replay_witness :
    getDeadLetter c5s2 1 = some
      ⟨1, 1, "publish", "ClassA", some "boom", "meta", "payload://p",
        none, none, 0, none, .open_, none, none, 1, 1⟩
    ∧ ∃ s', fail_replay c5s2 1 "ClassB" "boom2" "meta" false 2 = some s'
      ∧ getRun s' 1 = (getRun c5s2 1).map
          (fun r => { r with current_stage := "publish",
                             status := .failed, updated_at := 2 })
      ∧ getDeadLetter s' 1 = some
          { (⟨1, 1, "publish", "ClassA", some "boom", "meta", "payload://p",
              none, none, 0, none, .open_, none, none, 1, 1⟩ : DLRow) with
              status := if false = false ∧ "ClassB" = "ClassA"
                        then .escalated else .open_,
              error_class := "ClassB",
              error_message := some "boom2",
              error_metadata := "meta",
              escalated_at := if false = false ∧ "ClassB" = "ClassA"
                              then some 2 else none,
              updated_at := 2 } :=
  ⟨by decide,
    c5_fail_replay c5s2 1 "ClassB" "boom2" "meta" false 2
      ⟨1, 1, "publish", "ClassA", some "boom", "meta", "payload://p",
        none, none, 0, none, .open_, none, none, 1, 1⟩ (by decide)⟩

/-- C9: whenever the dead letter exists and carries remediation
evidence, `start_replay` succeeds with no precondition on the dead
letter's status (the statement quantifies over rows of any status,
including `resolved` and `escalated`): it sets the status to
`replaying`, re-sets `replay_start_stage`, increments `replay_count`,
and flips the run back to `running` at the restart stage. -/
theorem c9_start_replay (s : FPState) (dl_id : Nat) (fr : Bool) (now : Int)
    (dl : DLRow) (hdl : getDeadLetter s dl_id = some dl)
    (hev : dl.remediation_evidence.isSome) :
    ∃ s', start_replay s dl_id fr now
        = some (.ok (⟨dl_id, dl.run_id,
            (if fr then s.stages.headI else dl.failed_stage), fr⟩, s'))
      ∧ getDeadLetter s' dl_id = some
          { dl with status := .replaying,
                    replay_start_stage :=
                      some (if fr then s.stages.headI else dl.failed_stage),
                    replay_count := dl.replay_count + 1, updated_at := now }
      ∧ getRun s' dl.run_id = (getRun s dl.run_id).map
          (fun r => { r with
              current_stage := (if fr then s.stages.headI else dl.failed_stage),
              status := .running, updated_at := now }) := by
  have hid : (dl.id == dl_id) = true := getDeadLetter_id s dl_id dl hdl
  have hne : dl.remediation_evidence.isNone = false := by
    cases h : dl.remediation_evidence with
    | none => rw [h] at hev; simp at hev
    | some v => simp
  rw [start_replay, hdl]
  simp only [hne, Bool.false_eq_true, if_false]
  refine ⟨_, rfl, ?_, ?_⟩
  · unfold getDeadLetter
    simp only
    rw [find?_map_insensitive _ _ _ (by intro x; split <;> rfl)]
    unfold getDeadLetter at hdl
    rw [hdl]
    have hid2 : dl.id = dl_id := by simpa using hid
    simp [hid2]
  · unfold getRun updateRun
    simp only
    rw [find?_map_insensitive _ _ _ (by intro x; split <;> rfl)]
    cases hr : s.runs.find? fun r => r.id == dl.run_id with
    | none => rfl
    | some r =>
        have hrid : r.id = dl.run_id := by
          have := List.find?_some hr
          simpa using this
        simp [hrid]

/-- A dead letter in status `resolved` with remediation evidence. -/
def c9dl : DLRow :=
  ⟨1, 1, "publish", "ClassA", some "boom", "meta", "payload://p",
    some "operator=o; evidence=e", none, 0, none, .resolved, none,
    some 4, 0, 4⟩

def c9state : FPState :=
  ⟨["ingest", "publish"], [⟨1, "payload://p", "publish", .failed, 0, 1⟩],
    [c9dl], 2, 2⟩

/-- Witness for `c9_start_replay`: replay of a `resolved` dead letter
succeeds. -/
theorem c9_start_replay_witness :
    getDeadLetter c9state 1 = some c9dl
    ∧ c9dl.remediation_evidence.isSome
    ∧ ∃ s', start_replay c9state 1 false 9
          = some (.ok (⟨1, c9dl.run_id,
              (if false then c9state.stages.headI else c9dl.failed_stage),
              false⟩, s'))
        ∧ getDeadLetter s' 1 = some
            { c9dl with status := .replaying,
                        replay_start_stage :=
                          some (if false then c9state.stages.headI
                                else c9dl.failed_stage),
                        replay_count := c9dl.replay_count + 1,
                        updated_at := 9 }
        ∧ getRun s' c9dl.run_id = (getRun c9state c9dl.run_id).map
            (fun r => { r with
                current_stage := (if false then c9state.stages.headI
                                  else c9dl.failed_stage),
                status := .running, updated_at := 9 }) :=
  ⟨by decide, by decide,
    c9_start_replay c9state 1 false 9 c9dl (by decide) (by decide)⟩

end FailurePipeline

namespace RequestValidation

def SUPPORTED_SCHEMA_VERSION : String := "1.0"
def SUPPORTED_PROMPT_VERSION : String := "1.0.0"

/-- Split a character list on `'.'`, like splitting the string on the
literal dot (`"1.0" ↦ ["1","0"]`, `".." ↦ ["","",""]`). -/
def splitDots : List Char → List (List Char)
  | [] => [[]]
  | c :: rest =>
      if c = '.' then [] :: splitDots rest
      else
        match splitDots rest with
        | [] => [[c]]
        | h :: t => (c :: h) :: t

/-- `\d+`: non-empty, digits only. -/
def isDigits (cs : List Char) : Bool :=
  !cs.isEmpty && cs.all fun c => c.isDigit

/-- Numeric value of a digit string (what `int(...)` returns on a
regex-matched group). -/
def digitsVal (cs : List Char) : Nat :=
  cs.foldl (fun acc c => acc * 10 + (c.toNat - '0'.toNat)) 0

/-- `_parse_schema_version`: fullmatch of `^(\d+)\.(\d+)$`. -/
def parse_schema_version (s : String) : Option (Nat × Nat) :=
  match splitDots s.data with
  | [a, b] =>
      if isDigits a && isDigits b then some (digitsVal a, digitsVal b)
      else none
  | _ => none

/-- `_parse_prompt_version`: fullmatch of `^(\d+)\.(\d+)(?:\.(\d+))?$`,
patch defaulting to 0. -/
def parse_prompt_version (s : String) : Option (Nat × Nat × Nat) :=
  match splitDots s.data with
  | [a, b] =>
      if isDigits a && isDigits b then some (digitsVal a, digitsVal b, 0)
      else none
  | [a, b, c] =>
      if isDigits a && isDigits b && isDigits c then
        some (digitsVal a, digitsVal b, digitsVal c)
      else none
  | _ => none

/-- One recorded diagnostic of `DiagnosticRecorder.emit` (the optional
`details` dict is omitted: it carries no decision). -/
structure Diagnostic where
  correlation_id : String
  code : String
  field : String
  reason : String
  action : String
deriving DecidableEq, Repr

/-- The version-gate portion of `validate_and_reconcile_review_result`
(the `schema_version` and `prompt_version` checks, reached once the
payload passed JSON parsing and the top-level field checks): `.ok none`
means both versions accepted, `.ok (some d)` the rejection diagnostic,
`.error` the `RuntimeError` on an unparseable supported version. -/
def checkVersions (schema_version prompt_version correlation_id : String) :
    Except String (Option Diagnostic) :=
  match parse_schema_version schema_version with
  | none => .ok (some ⟨correlation_id, "schema_mismatch", "schema_version",
      "invalid_schema_version_format", "reject"⟩)
  | some psv =>
      match parse_schema_version SUPPORTED_SCHEMA_VERSION with
      | none => .error "SUPPORTED_SCHEMA_VERSION must follow major.minor format"
      | some ssv =>
          if psv.1 ≠ ssv.1 ∨ psv.2 < ssv.2 then
            .ok (some ⟨correlation_id, "incompatible_version", "schema_version",
              "unsupported_schema_version", "reject"⟩)
          else
            match parse_prompt_version prompt_version with
            | none => .ok (some ⟨correlation_id, "schema_mismatch",
                "prompt_version", "invalid_prompt_version_format", "reject"⟩)
            | some ppv =>
                match parse_prompt_version SUPPORTED_PROMPT_VERSION with
                | none => .error
                    "SUPPORTED_PROMPT_VERSION must follow major.minor.patch format"
                | some spv =>
                    if ppv.1 ≠ spv.1 ∨ ppv.2.1 ≠ spv.2.1 then
                      .ok (some ⟨correlation_id, "incompatible_version",
                        "prompt_version", "unsupported_prompt_version", "reject"⟩)
                    else .ok none

/-- C8: the version gate accepts exactly when `schema_version` parses as
`major.minor` with major 1 and minor ≥ 0 (the supported `1.0`) and
`prompt_version` parses with major 1 and minor 0 (the supported `1.0.0`)
under any patch; `"1.2"`/`"1.0.9"` is accepted, while `"2.0"` (whatever
the prompt version) and `"1.1.0"` are rejected with an
`incompatible_version` diagnostic. -/
theorem c8_version_gate (sv pv cid : String) :
    (checkVersions sv pv cid = .ok none ↔
      ((∃ n, parse_schema_version sv = some (1, n) ∧ 0 ≤ n)
        ∧ (∃ z, parse_prompt_version pv = some (1, 0, z))))
    ∧ checkVersions "1.2" "1.0.9" cid = .ok none
    ∧ checkVersions "2.0" pv cid
        = .ok (some ⟨cid, "incompatible_version", "schema_version",
            "unsupported_schema_version", "reject"⟩)
    ∧ checkVersions "1.0" "1.1.0" cid
        = .ok (some ⟨cid, "incompatible_version", "prompt_version",
            "unsupported_prompt_version", "reject"⟩) := by
  have hs : parse_schema_version SUPPORTED_SCHEMA_VERSION = some (1, 0) := by
    decide
  have hp : parse_prompt_version SUPPORTED_PROMPT_VERSION = some (1, 0, 0) := by
    decide
  refine ⟨⟨?_, ?_⟩, ?_, ?_, ?_⟩
  · intro h
    unfold checkVersions at h
    rw [hs, hp] at h
    cases hsv : parse_schema_version sv with
    | none => rw [hsv] at h; simp at h
    | some psv =>
        obtain ⟨m, n⟩ := psv
        rw [hsv] at h
        simp only at h
        by_cases h1 : m ≠ 1 ∨ n < 0
        · rw [if_pos h1] at h
          simp at h
        · rw [if_neg h1] at h
          push_neg at h1
          cases hpv : parse_prompt_version pv with
          | none => rw [hpv] at h; simp at h
          | some ppv =>
              obtain ⟨a, b, z⟩ := ppv
              rw [hpv] at h
              simp only at h
              by_cases h2 : a ≠ 1 ∨ b ≠ 0
              · rw [if_pos h2] at h
                simp at h
              · push_neg at h2
                refine ⟨⟨n, ?_, Nat.zero_le n⟩, ⟨z, ?_⟩⟩
                · rw [h1.1]
                · rw [h2.1, h2.2]
  · rintro ⟨⟨n, hsv, -⟩, ⟨z, hpv⟩⟩
    unfold checkVersions
    rw [hsv, hs, hp, hpv]
    simp
  · rfl
  · rfl
  · rfl

/-- Witness for `c8_version_gate` at concrete versions. -/
theorem c8_version_gate_witness :
    (checkVersions "1.2" "1.0.9" "corr-1" = .ok none ↔
      ((∃ n, parse_schema_version "1.2" = some (1, n) ∧ 0 ≤ n)
        ∧ (∃ z, parse_prompt_version "1.0.9" = some (1, 0, z))))
    ∧ checkVersions "1.2" "1.0.9" "corr-1" = .ok none
    ∧ checkVersions "2.0" "1.0.9" "corr-1"
        = .ok (some ⟨"corr-1", "incompatible_version", "schema_version",
            "unsupported_schema_version", "reject"⟩)
    ∧ checkVersions "1.0" "1.1.0" "corr-1"
        = .ok (some ⟨"corr-1", "incompatible_version", "prompt_version",
            "unsupported_prompt_version", "reject"⟩) :=
  c8_version_gate "1.2" "1.0.9" "corr-1"

end RequestValidation
